import Mathlib

/-!
# Verification of the rbac-srvc role/service bookkeeping logic

Shallow embedding of the core logic of the `rbac-srvc` repository:
the Reference Validator (`validateServiceOps`), the Role Expander
(the `rolexpand` POST handler), the service/role registry mutations and
the pager (`buildResponse`, `getServices`/`getRoles`), together with
theorems settling the specification claims about them.

Identifiers (Mongo ObjectIds) are modelled as strings; Mongoose
documents become plain structures; the document store becomes an
explicit `Store` value threaded through the operations; route handlers
returning HTTP statuses become functions into `Except ApiError`.
-/

namespace Rbac

/-- An operation nested inside a service document
(`serviceOperationSchema` in `src/models/service.ts`): an `_id` and a
display name.  `equals` on the Mongoose subdocument compares `_id`s. -/
structure Operation where
  _id : String
  name : String
  deriving Repr, DecidableEq

/-- A service document (`serviceSchema`): name plus nested operations. -/
structure Service where
  _id : String
  name : String
  operations : List Operation
  deriving Repr, DecidableEq

/-- A role document (`roleSchema` in `src/models/roles.ts`): name plus a
list of referenced service-operation identifiers. -/
structure Role where
  _id : String
  name : String
  serviceOpIds : List String
  deriving Repr, DecidableEq

/-- The body of a role create/update request (`IRoleDto`). -/
structure RoleDto where
  name : String
  serviceOpIds : List String
  deriving Repr, DecidableEq

/-- The persistent document store: the `services` and `roles`
collections.  It is the sole shared state of the system. -/
structure Store where
  services : List Service
  roles : List Role
  deriving Repr, DecidableEq

/-- The error taxonomy of the routes: 400 validation failures, 404/400
lookup failures, 413 page-size failures. -/
inductive ApiError where
  | ValidationError
  | NotFound
  | PayloadTooLarge
  deriving Repr, DecidableEq

/-- Inner two loops of `validateServiceOps` (`rolesApi.ts` 1036-1040):
scan all services' operations for a subdocument whose `_id` equals the
given identifier, stopping at the first match. -/
def findOpsId (services : List Service) (opId : String) : Bool :=
  services.any fun srvc => srvc.operations.any fun op => op._id == opId

/-- `validateServiceOps` (`rolesApi.ts` 1028-1046): for each requested
identifier in order, search every registered service's operations; the
outer loop stops as soon as one identifier fails to match. -/
def validateServiceOps (services : List Service) : List String → Bool
  | [] => true
  | opId :: rest =>
      if findOpsId services opId then validateServiceOps services rest
      else false

/-- `Role.findById`: first stored role whose `_id` equals the given
identifier, or `none`. -/
def findRoleById (roles : List Role) (roleId : String) : Option Role :=
  roles.find? fun r => r._id == roleId

/-- Loop body of the `rolexpand` POST handler (`rolesApi.ts` 1112-1115):
look up each role identifier in order and concatenate its
`serviceOpIds` onto the accumulator; a failed lookup aborts the whole
request with a lookup error.

Modelled from the spec for the error label only: `RouteErrorFormatter`
(in `startup/utils/RouteHandlingError`, not under `src/`) classifies the
aborting lookup failure; the spec's contract for `expandRoles` names it
NotFound, so the abort is rendered `Except.error ApiError.NotFound`. -/
def expandRolesLoop (roles : List Role) (acc : List String) :
    List String → Except ApiError (List String)
  | [] => Except.ok acc
  | roleId :: rest =>
      match findRoleById roles roleId with
      | none => Except.error ApiError.NotFound
      | some r => expandRolesLoop roles (acc ++ r.serviceOpIds) rest

/-- The `rolexpand` POST handler (`rolesApi.ts` 1105-1123): expand a
list of role identifiers into the concatenation of the referenced
roles' operation-identifier lists. -/
def expandRoles (roles : List Role) (roleIds : List String) :
    Except ApiError (List String) :=
  expandRolesLoop roles [] roleIds

/-- Name bounds checked by `validateRole` (`src/models/roles.ts` 24-31):
Joi `string().min(4).max(40)` over `Limits.ROLENAME_MIN_LENGTH = 4` and
`Limits.ROLENAME_MAX_LENGTH = 40`. -/
def validRoleName (name : String) : Bool :=
  4 ≤ name.length && name.length ≤ 40

/-- The roles POST handler (`unnamed/part_002` 47-75): `validateRole`
first; on name failure a 400 validation error with no store write; then
`validateServiceOps`; on reference failure likewise; otherwise the new
role is saved (appended to the collection with the given fresh id). -/
def createRole (st : Store) (freshId : String) (dto : RoleDto) :
    Store × Except ApiError Role :=
  if !validRoleName dto.name then
    (st, Except.error ApiError.ValidationError)
  else if validateServiceOps st.services dto.serviceOpIds then
    let role : Role := ⟨freshId, dto.name, dto.serviceOpIds⟩
    ({ st with roles := st.roles ++ [role] }, Except.ok role)
  else
    (st, Except.error ApiError.ValidationError)

/-- `Role.findOneAndUpdate({_id: roleId}, newRole, {new: true})`: update
the first role matching the id with the dto's fields and return the
updated document, or leave the collection alone and return `none`. -/
def findOneAndUpdateRole (roleId : String) (dto : RoleDto) :
    List Role → List Role × Option Role
  | [] => ([], none)
  | r :: rest =>
      if r._id == roleId then
        let r' : Role := { r with name := dto.name, serviceOpIds := dto.serviceOpIds }
        (r' :: rest, some r')
      else
        let res := findOneAndUpdateRole roleId dto rest
        (r :: res.1, res.2)

/-- The roles PUT handler (`unnamed/part_002` 116-139): run the
Reference Validator over the dto's `serviceOpIds`; on success apply
`findOneAndUpdate` and answer 200 with the updated document — which is
JSON `null` when no role matched the id; on reference failure answer a
400 validation error. -/
def roleUpdate (st : Store) (roleId : String) (dto : RoleDto) :
    Store × Except ApiError (Option Role) :=
  if validateServiceOps st.services dto.serviceOpIds then
    let res := findOneAndUpdateRole roleId dto st.roles
    ({ st with roles := res.1 }, Except.ok res.2)
  else
    (st, Except.error ApiError.ValidationError)

/-- `Role.deleteOne({_id: roleId})`: remove the first matching role
document, if any. -/
def deleteOneRole (roleId : String) : List Role → List Role
  | [] => []
  | r :: rest => if r._id == roleId then rest else r :: deleteOneRole roleId rest

/-- The roles DELETE handler (`unnamed/part_002` 259-273): delete
whatever matches and answer success (201) unconditionally. -/
def roleDelete (st : Store) (roleId : String) :
    Store × Except ApiError String :=
  ({ st with roles := deleteOneRole roleId st.roles }, Except.ok "Success")

/-- `ServiceModel.deleteOne({_id: serviceId})`: remove the first
matching service document, if any. -/
def deleteOneService (serviceId : String) : List Service → List Service
  | [] => []
  | s :: rest =>
      if s._id == serviceId then rest else s :: deleteOneService serviceId rest

/-- The services DELETE handler (`rolesApi.ts` 906-918): delete the
service (with its nested operations) and answer success; the roles
collection is not touched (the cascade is an explicit TODO). -/
def serviceDelete (st : Store) (serviceId : String) :
    Store × Except ApiError String :=
  ({ st with services := deleteOneService serviceId st.services },
   Except.ok "Success")

/-- Inner loop of the services PUT handler (`rolesApi.ts` 866-871): scan
the stored operations for the first whose `_id` equals the incoming
operation's `_id`, replace that operation's name in place and break;
with no match the list is returned untouched (the incoming operation is
ignored, never appended). -/
def renameOp (incoming : Operation) : List Operation → List Operation
  | [] => []
  | op :: rest =>
      if op._id == incoming._id then { op with name := incoming.name } :: rest
      else op :: renameOp incoming rest

/-- Outer loop of the services PUT handler (`rolesApi.ts` 865-872):
apply `renameOp` for each incoming operation in order. -/
def applyRenames (ops : List Operation) (incoming : List Operation) :
    List Operation :=
  incoming.foldl (fun acc inc => renameOp inc acc) ops

/-- The body of a service update request (`IServiceDto` without the
path-supplied id): new service name and operation renames. -/
structure ServiceDto where
  name : String
  operations : List Operation
  deriving Repr, DecidableEq

/-- The services PUT handler on a found service (`rolesApi.ts`
849-883): replace the service's name with the request's name, then
rename matching nested operations in place. -/
def updateService (srvc : Service) (dto : ServiceDto) : Service :=
  { srvc with
      name := dto.name,
      operations := applyRenames srvc.operations dto.operations }

/-- Navigation links of a paged response (`IPagedDataReturn._links`). -/
structure Links where
  base : String
  next : Option String := none
  prev : Option String := none
  deriving Repr, DecidableEq

/-- Paged response object (`IPagedDataReturn<T>`). -/
structure IPagedDataReturn (T : Type) where
  _links : Links
  pageSize : Nat
  pageNumber : Nat
  results : List T
  deriving Repr, DecidableEq

/-- `fullUrl.substring(0, fullUrl.lastIndexOf('?'))` when a `'?'`
occurs, else `fullUrl` unchanged (`buildResponse`, `rolesApi.ts`
1002-1006): strip any existing query string from the base URL. -/
def stripQuery (fullUrl : String) : String :=
  if fullUrl.data.contains '?' then
    String.mk (((fullUrl.data.reverse.dropWhile fun c => c ≠ '?').drop 1).reverse)
  else fullUrl

/-- Query-string suffix `?pageSize=<n>&pageNumber=<m>` appended to the
stripped base URL by `buildResponse`. -/
def pageQuery (pageSize pageNumber : Nat) : String :=
  "?pageSize=" ++ toString pageSize ++ "&pageNumber=" ++ toString pageNumber

/-- `buildResponse` (`rolesApi.ts` 1001-1026): strip the query string
from the caller's URL, emit the page data, a `prev` link exactly when
`pageNumber > 1`, and a `next` link exactly when the supplied slice is
full (its length equals `pageSize`). -/
def buildResponse (T : Type) (fullUrl : String) (pageNumber pageSize : Nat)
    (products : List T) : IPagedDataReturn T :=
  let url := stripQuery fullUrl
  { _links :=
      { base := url
        prev :=
          if pageNumber > 1 then some (url ++ pageQuery pageSize (pageNumber - 1))
          else none
        next :=
          if products.length == pageSize then
            some (url ++ pageQuery pageSize (pageNumber + 1))
          else none }
    pageSize := pageSize
    pageNumber := pageNumber
    results := products }

/-- `getServices` (`rolesApi.ts` 964-990) and the identical `getRoles`
(`unnamed/part_002` 281-299): default `pageSize` to 10 and `pageNumber`
to 1 from the query, throw 413 when `pageSize` exceeds 100 BEFORE the
store is consulted, otherwise read the page slice
(`skip((pageNumber-1)*pageSize).limit(pageSize)`) and build the paged
response.  The store collection is passed as `items`. -/
def getPagedList (T : Type) (items : List T) (pageSizeQ pageNumberQ : Option Nat)
    (fullUrl : String) : Except ApiError (IPagedDataReturn T) :=
  let pageSize := pageSizeQ.getD 10
  if pageSize > 100 then Except.error ApiError.PayloadTooLarge
  else
    let pageNumber := pageNumberQ.getD 1
    let slice := (items.drop ((pageNumber - 1) * pageSize)).take pageSize
    Except.ok (buildResponse T fullUrl pageNumber pageSize slice)

/-! ## Supporting lemmas -/

theorem findOpsId_iff (services : List Service) (opId : String) :
    findOpsId services opId = true ↔
      ∃ srvc ∈ services, ∃ op ∈ srvc.operations, op._id = opId := by
  simp [findOpsId]

theorem validateServiceOps_eq_all (services : List Service) (S : List String) :
    validateServiceOps services S = S.all (findOpsId services) := by
  induction S with
  | nil => rfl
  | cons a l ih =>
      cases h : findOpsId services a <;>
        simp [validateServiceOps, h, ih]

theorem expandRolesLoop_ok (roles : List Role) (S : List String) :
    ∀ acc : List String, (∀ rid ∈ S, (findRoleById roles rid).isSome) →
      expandRolesLoop roles acc S =
        Except.ok (acc ++
          (S.map fun rid =>
            ((findRoleById roles rid).map Role.serviceOpIds).getD []).flatten) := by
  induction S with
  | nil => intro acc _; simp [expandRolesLoop]
  | cons a l ih =>
      intro acc h
      obtain ⟨r, hr⟩ :=
        Option.isSome_iff_exists.mp (h a (List.mem_cons_self a l))
      have hrest : ∀ rid ∈ l, (findRoleById roles rid).isSome := by
        intro rid hrid
        exact h rid (List.mem_cons_of_mem a hrid)
      simp only [expandRolesLoop, hr]
      rw [ih (acc ++ r.serviceOpIds) hrest]
      simp [hr, List.append_assoc]

theorem expandRolesLoop_notFound (roles : List Role) (S : List String) :
    ∀ acc : List String, (∃ rid ∈ S, findRoleById roles rid = none) →
      expandRolesLoop roles acc S = Except.error ApiError.NotFound := by
  induction S with
  | nil => intro acc h; simp at h
  | cons a l ih =>
      intro acc h
      obtain ⟨rid, hmem, hnone⟩ := h
      rcases List.mem_cons.mp hmem with heq | htail
      · subst heq
        simp [expandRolesLoop, hnone]
      · cases hfa : findRoleById roles a with
        | none => simp [expandRolesLoop, hfa]
        | some r =>
            simp only [expandRolesLoop, hfa]
            exact ih _ ⟨rid, htail, hnone⟩

/-! ## Claims -/

/-- C1: `validateServiceOps S` returns true iff every identifier in `S`
equals the `_id` of some operation of some registered service; the
empty sequence yields true (also with no services registered), and any
`S` containing an unknown identifier yields false wherever it sits. -/
theorem C1_validateServiceOps_iff_all_known (services : List Service)
    (S : List String) :
    (validateServiceOps services S = true ↔
      ∀ opId ∈ S, ∃ srvc ∈ services, ∃ op ∈ srvc.operations, op._id = opId)
    ∧ validateServiceOps services [] = true
    ∧ (∀ opId ∈ S,
        (¬ ∃ srvc ∈ services, ∃ op ∈ srvc.operations, op._id = opId) →
        validateServiceOps services S = false) := by
  have hiff : validateServiceOps services S = true ↔
      ∀ opId ∈ S, ∃ srvc ∈ services, ∃ op ∈ srvc.operations, op._id = opId := by
    rw [validateServiceOps_eq_all, List.all_eq_true]
    constructor
    · intro h opId hmem
      exact (findOpsId_iff services opId).mp (h opId hmem)
    · intro h opId hmem
      exact (findOpsId_iff services opId).mpr (h opId hmem)
  refine ⟨hiff, rfl, ?_⟩
  intro opId hmem hno
  cases hval : validateServiceOps services S with
  | false => rfl
  | true => exact absurd (hiff.mp hval opId hmem) hno

/-- C1 witness: one unknown identifier anywhere makes the validation
false; the empty sequence is valid with no services registered. -/
theorem C1_validateServiceOps_iff_all_known_witness :
    validateServiceOps [⟨"A", "SvcA", [⟨"X", "op1"⟩]⟩] ["X", "Z"] = false
    ∧ validateServiceOps [] [] = true :=
  ⟨(C1_validateServiceOps_iff_all_known [⟨"A", "SvcA", [⟨"X", "op1"⟩]⟩]
      ["X", "Z"]).2.2 "Z" (by decide) (by decide),
   (C1_validateServiceOps_iff_all_known [] []).2.1⟩

/-- C2: when every requested role identifier resolves, `expandRoles`
returns exactly the concatenation of the resolved roles' `serviceOpIds`
lists in input order, duplicates retained; the empty request yields the
empty sequence. -/
theorem C2_expandRoles_concat (roles : List Role) (S : List String)
    (h : ∀ rid ∈ S, (findRoleById roles rid).isSome) :
    expandRoles roles S =
      Except.ok
        ((S.map fun rid =>
          ((findRoleById roles rid).map Role.serviceOpIds).getD []).flatten)
    ∧ expandRoles roles [] = Except.ok [] := by
  constructor
  · have := expandRolesLoop_ok roles S [] h
    simpa [expandRoles] using this
  · rfl

/-- C2 witness: two stored roles sharing an operation id expand to the
plain concatenation with the duplicate retained. -/
theorem C2_expandRoles_concat_witness :
    expandRoles [⟨"E", "Editors", ["X", "Y"]⟩, ⟨"F", "Finance", ["X"]⟩]
      ["E", "F"] = Except.ok ["X", "Y", "X"] :=
  (C2_expandRoles_concat
    [⟨"E", "Editors", ["X", "Y"]⟩, ⟨"F", "Finance", ["X"]⟩]
    ["E", "F"] (by decide)).1

/-- C3: when some requested role identifier does not resolve, the whole
expansion aborts with the NotFound lookup error and no partial sequence
is returned. -/
theorem C3_expandRoles_notFound (roles : List Role) (S : List String)
    (h : ∃ rid ∈ S, findRoleById roles rid = none) :
    expandRoles roles S = Except.error ApiError.NotFound :=
  expandRolesLoop_notFound roles S [] h

/-- C3 witness: expanding an id with no stored role aborts NotFound even
though the other id resolves. -/
theorem C3_expandRoles_notFound_witness :
    expandRoles [⟨"E", "Editors", ["X"]⟩] ["E", "Z"] =
      Except.error ApiError.NotFound :=
  C3_expandRoles_notFound [⟨"E", "Editors", ["X"]⟩] ["E", "Z"] (by decide)

/-- C4: deleting a service never touches the roles collection, an
expansion after the delete equals the expansion before it, and a role
whose `serviceOpIds` reference the deleted service's operations still
expands to those identifiers (the stale reference is preserved, not an
error). -/
theorem C4_serviceDelete_frame (st : Store) (serviceId : String)
    (rid : String) (r : Role) (h : findRoleById st.roles rid = some r) :
    (serviceDelete st serviceId).1.roles = st.roles
    ∧ (∀ ids : List String,
        expandRoles (serviceDelete st serviceId).1.roles ids =
          expandRoles st.roles ids)
    ∧ expandRoles (serviceDelete st serviceId).1.roles [rid] =
        Except.ok r.serviceOpIds := by
  refine ⟨rfl, fun ids => rfl, ?_⟩
  show expandRoles st.roles [rid] = Except.ok r.serviceOpIds
  simp [expandRoles, expandRolesLoop, h]

/-- C4 witness: delete service A owning operation X; the role holding
the now-stale reference to X still expands to [X]. -/
theorem C4_serviceDelete_frame_witness :
    (serviceDelete
        ⟨[⟨"A", "SvcA", [⟨"X", "op1"⟩]⟩], [⟨"E", "Editors", ["X"]⟩]⟩
        "A").1.services = []
    ∧ expandRoles
        (serviceDelete
          ⟨[⟨"A", "SvcA", [⟨"X", "op1"⟩]⟩], [⟨"E", "Editors", ["X"]⟩]⟩
          "A").1.roles ["E"] = Except.ok ["X"] := by
  refine ⟨by decide, ?_⟩
  exact (C4_serviceDelete_frame
    ⟨[⟨"A", "SvcA", [⟨"X", "op1"⟩]⟩], [⟨"E", "Editors", ["X"]⟩]⟩
    "A" "E" ⟨"E", "Editors", ["X"]⟩ (by decide)).2.2

/-- C5: a role-creation request whose name is shorter than 4 or longer
than 40 characters fails with a validation error and leaves the store
untouched, whatever the reference situation is (the store, and with it
the Reference Validator's verdict, is arbitrary: the name check comes
first). -/
theorem C5_createRole_name_bounds (st : Store) (freshId : String)
    (dto : RoleDto) (h : dto.name.length < 4 ∨ 40 < dto.name.length) :
    createRole st freshId dto = (st, Except.error ApiError.ValidationError) := by
  have hname : validRoleName dto.name = false := by
    simp only [validRoleName, Bool.and_eq_false_iff, decide_eq_false_iff_not]
    omega
  simp [createRole, hname]

/-- C5 witness: creating role "abc" (length 3) fails with a validation
error and persists nothing, although its single reference "X" is a
registered operation id. -/
theorem C5_createRole_name_bounds_witness :
    validateServiceOps [⟨"A", "SvcA", [⟨"X", "op1"⟩]⟩] ["X"] = true
    ∧ createRole ⟨[⟨"A", "SvcA", [⟨"X", "op1"⟩]⟩], []⟩ "fresh"
        ⟨"abc", ["X"]⟩ =
      (⟨[⟨"A", "SvcA", [⟨"X", "op1"⟩]⟩], []⟩,
       Except.error ApiError.ValidationError) :=
  ⟨by decide,
   C5_createRole_name_bounds ⟨[⟨"A", "SvcA", [⟨"X", "op1"⟩]⟩], []⟩ "fresh"
     ⟨"abc", ["X"]⟩ (by decide)⟩

/-- C6: within the claimed parameter range, the paged response's base
link is the caller's URL with its query string stripped; the prev link
is present exactly when `pageNumber > 1` and then equals the stripped
URL plus `?pageSize=<pageSize>&pageNumber=<pageNumber-1>`; the next
link is present exactly when the supplied slice is full and then equals
the stripped URL plus `?pageSize=<pageSize>&pageNumber=<pageNumber+1>`. -/
theorem C6_buildResponse_links (T : Type) (fullUrl : String)
    (pageNumber pageSize : Nat) (products : List T)
    (h1 : 1 ≤ pageNumber) (h2 : 1 ≤ pageSize) (h3 : pageSize ≤ 100) :
    (buildResponse T fullUrl pageNumber pageSize products)._links.base =
      stripQuery fullUrl
    ∧ ((buildResponse T fullUrl pageNumber pageSize products)._links.prev ≠ none
        ↔ 1 < pageNumber)
    ∧ (1 < pageNumber →
        (buildResponse T fullUrl pageNumber pageSize products)._links.prev =
          some (stripQuery fullUrl ++ pageQuery pageSize (pageNumber - 1)))
    ∧ ((buildResponse T fullUrl pageNumber pageSize products)._links.next ≠ none
        ↔ products.length = pageSize)
    ∧ (products.length = pageSize →
        (buildResponse T fullUrl pageNumber pageSize products)._links.next =
          some (stripQuery fullUrl ++ pageQuery pageSize (pageNumber + 1))) := by
  refine ⟨rfl, ?_, ?_, ?_, ?_⟩
  · by_cases hp : 1 < pageNumber <;> simp [buildResponse, hp]
  · intro hp; simp [buildResponse, hp]
  · by_cases hn : products.length = pageSize <;> simp [buildResponse, hn]
  · intro hn; simp [buildResponse, hn]

/-- C6 witness: the spec's pager example — 25 items, page 3, size 10 —
yields base link without the old query string, a prev link to page 2
and no next link (the slice holds only the last 5 items). -/
theorem C6_buildResponse_links_witness :
    (buildResponse Nat "http://h/api/v1/roles?pageSize=10&pageNumber=3"
        3 10 [20, 21, 22, 23, 24])._links.base = "http://h/api/v1/roles"
    ∧ (buildResponse Nat "http://h/api/v1/roles?pageSize=10&pageNumber=3"
        3 10 [20, 21, 22, 23, 24])._links.prev =
      some "http://h/api/v1/roles?pageSize=10&pageNumber=2"
    ∧ (buildResponse Nat "http://h/api/v1/roles?pageSize=10&pageNumber=3"
        3 10 [20, 21, 22, 23, 24])._links.next = none := by
  have h := C6_buildResponse_links Nat
    "http://h/api/v1/roles?pageSize=10&pageNumber=3" 3 10 [20, 21, 22, 23, 24]
    (by decide) (by decide) (by decide)
  refine ⟨h.1.trans (by decide), (h.2.2.1 (by decide)).trans (by decide), ?_⟩
  have hnext := h.2.2.2.1
  by_contra hne
  exact absurd (hnext.mp hne) (by decide)

/-- C7: a paged list request with `pageSize > 100` fails with
PayloadTooLarge and its outcome is independent of the stored collection
and of the rest of the request (no store read can influence it), while
`pageSize = 100` passes the check and produces a page. -/
theorem C7_pageSize_cap (T : Type) (items itemsB : List T) (psz : Nat)
    (pnQ pnQB : Option Nat) (url urlB : String) (h : 100 < psz) :
    getPagedList T items (some psz) pnQ url =
      Except.error ApiError.PayloadTooLarge
    ∧ getPagedList T items (some psz) pnQ url =
        getPagedList T itemsB (some psz) pnQB urlB
    ∧ ∃ page, getPagedList T items (some 100) pnQ url = Except.ok page := by
  refine ⟨?_, ?_, ?_⟩
  · simp [getPagedList, h]
  · simp [getPagedList, h]
  · exact ⟨_, rfl⟩

/-- C7 witness: pageSize 101 is rejected on two different stores alike;
pageSize 100 is served. -/
theorem C7_pageSize_cap_witness :
    getPagedList Nat [1, 2, 3] (some 101) none "u" =
      Except.error ApiError.PayloadTooLarge
    ∧ getPagedList Nat [1, 2, 3] (some 101) none "u" =
        getPagedList Nat [] (some 101) (some 7) "v"
    ∧ ∃ page, getPagedList Nat [1, 2, 3] (some 100) none "u" =
        Except.ok page :=
  C7_pageSize_cap Nat [1, 2, 3] [] 101 none (some 7) "u" "v" (by decide)

/-! ## Lemmas on the in-place operation rename of the service update -/

theorem renameOp_ids (inc : Operation) (ops : List Operation) :
    (renameOp inc ops).map Operation._id = ops.map Operation._id := by
  induction ops with
  | nil => rfl
  | cons op rest ih =>
      by_cases hop : op._id == inc._id <;> simp [renameOp, hop, ih]

theorem renameOp_no_match (inc : Operation) (ops : List Operation)
    (h : inc._id ∉ ops.map Operation._id) : renameOp inc ops = ops := by
  induction ops with
  | nil => rfl
  | cons op rest ih =>
      simp only [List.map_cons, List.mem_cons, not_or] at h
      have hop : (op._id == inc._id) = false := by
        simp [Ne.symm h.1]
      simp [renameOp, hop, ih h.2]

theorem renameOp_first_match (inc : Operation) (ops : List Operation)
    (h : inc._id ∈ ops.map Operation._id) :
    ∃ l op r, ops = l ++ op :: r ∧ op._id = inc._id
      ∧ (∀ x ∈ l, x._id ≠ inc._id)
      ∧ renameOp inc ops = l ++ { op with name := inc.name } :: r := by
  induction ops with
  | nil => simp at h
  | cons hd rest ih =>
      by_cases hop : hd._id = inc._id
      · refine ⟨[], hd, rest, by simp, hop, by simp, ?_⟩
        simp [renameOp, hop]
      · have hmem : inc._id ∈ rest.map Operation._id := by
          simp only [List.map_cons, List.mem_cons] at h
          exact h.resolve_left fun hx => hop hx.symm
        obtain ⟨l, op, r, hsplit, hid, hl, hren⟩ := ih hmem
        refine ⟨hd :: l, op, r, by simp [hsplit], hid, ?_, ?_⟩
        · intro x hx
          rcases List.mem_cons.mp hx with rfl | hx'
          · exact hop
          · exact hl x hx'
        · have hbop : (hd._id == inc._id) = false := by simp [hop]
          simp [renameOp, hbop, hren]

theorem applyRenames_ids (incs : List Operation) :
    ∀ ops : List Operation,
      (applyRenames ops incs).map Operation._id = ops.map Operation._id := by
  induction incs with
  | nil => intro ops; rfl
  | cons inc rest ih =>
      intro ops
      show (applyRenames (renameOp inc ops) rest).map Operation._id = _
      rw [ih (renameOp inc ops), renameOp_ids]

/-- C8: updating a service replaces its name with the request's name
and never inserts or removes a nested operation (the stored operation
identifiers, with their order, are unchanged); within each rename step,
an incoming operation whose id matches no stored operation changes
nothing, and one whose id matches renames exactly the first matching
stored operation in place. -/
theorem C8_updateService_renames (srvc : Service) (dto : ServiceDto) :
    (updateService srvc dto).name = dto.name
    ∧ (updateService srvc dto).operations.map Operation._id =
        srvc.operations.map Operation._id
    ∧ (updateService srvc dto).operations =
        applyRenames srvc.operations dto.operations
    ∧ (∀ (inc : Operation) (ops : List Operation),
        inc._id ∉ ops.map Operation._id → renameOp inc ops = ops)
    ∧ (∀ (inc : Operation) (ops : List Operation),
        inc._id ∈ ops.map Operation._id →
          ∃ l op r, ops = l ++ op :: r ∧ op._id = inc._id
            ∧ (∀ x ∈ l, x._id ≠ inc._id)
            ∧ renameOp inc ops = l ++ { op with name := inc.name } :: r) :=
  ⟨rfl, applyRenames_ids dto.operations srvc.operations, rfl,
   renameOp_no_match, renameOp_first_match⟩

/-- C8 witness: renaming operation X and offering the unknown operation
Q replaces the service name, renames X in place and neither appends Q
nor drops Y. -/
theorem C8_updateService_renames_witness :
    (updateService ⟨"A", "SvcA", [⟨"X", "op1"⟩, ⟨"Y", "op2"⟩]⟩
        ⟨"NewName", [⟨"X", "renamed"⟩, ⟨"Q", "ignored"⟩]⟩).name = "NewName"
    ∧ (updateService ⟨"A", "SvcA", [⟨"X", "op1"⟩, ⟨"Y", "op2"⟩]⟩
        ⟨"NewName", [⟨"X", "renamed"⟩, ⟨"Q", "ignored"⟩]⟩).operations.map
          Operation._id = ["X", "Y"] := by
  have h := C8_updateService_renames ⟨"A", "SvcA", [⟨"X", "op1"⟩, ⟨"Y", "op2"⟩]⟩
    ⟨"NewName", [⟨"X", "renamed"⟩, ⟨"Q", "ignored"⟩]⟩
  exact ⟨h.1, h.2.1.trans (by decide)⟩

/-! ## Lemmas on role update and delete lookups -/

theorem findOneAndUpdateRole_miss (roleId : String) (dto : RoleDto) :
    ∀ roles : List Role, findRoleById roles roleId = none →
      findOneAndUpdateRole roleId dto roles = (roles, none) := by
  intro roles
  induction roles with
  | nil => intro _; rfl
  | cons r rest ih =>
      intro h
      cases hr : r._id == roleId with
      | true => simp [findRoleById, List.find?_cons, hr] at h
      | false =>
          have hrest : findRoleById rest roleId = none := by
            simpa [findRoleById, List.find?_cons, hr] using h
          simp [findOneAndUpdateRole, hr, ih hrest]

theorem deleteOneRole_miss (roleId : String) :
    ∀ roles : List Role, findRoleById roles roleId = none →
      deleteOneRole roleId roles = roles := by
  intro roles
  induction roles with
  | nil => intro _; rfl
  | cons r rest ih =>
      intro h
      cases hr : r._id == roleId with
      | true => simp [findRoleById, List.find?_cons, hr] at h
      | false =>
          have hrest : findRoleById rest roleId = none := by
            simpa [findRoleById, List.find?_cons, hr] using h
          simp [deleteOneRole, hr, ih hrest]

theorem findOneAndUpdateRole_hit (roleId : String) (dto : RoleDto) :
    ∀ (roles : List Role) (r : Role), findRoleById roles roleId = some r →
      (findOneAndUpdateRole roleId dto roles).2 =
          some { r with name := dto.name, serviceOpIds := dto.serviceOpIds }
        ∧ { r with name := dto.name, serviceOpIds := dto.serviceOpIds } ∈
            (findOneAndUpdateRole roleId dto roles).1 := by
  intro roles
  induction roles with
  | nil => intro r h; simp [findRoleById] at h
  | cons hd rest ih =>
      intro r h
      cases hr : hd._id == roleId with
      | true =>
          have : hd = r := by
            simpa [findRoleById, List.find?_cons, hr] using h
          subst this
          simp [findOneAndUpdateRole, hr]
      | false =>
          have hrest : findRoleById rest roleId = some r := by
            simpa [findRoleById, List.find?_cons, hr] using h
          have := ih r hrest
          simp [findOneAndUpdateRole, hr, this.1, this.2]

/-- C9 counterexample: in a store holding no role with id "r1" (here an
empty roles collection), a role update whose references validate
answers success (200 with a null document) rather than NotFound, and a
role delete answers success (201 "Success") rather than NotFound — the
claim's NotFound failure does not happen at this input. -/
theorem C9_counterexample_update_delete_succeed :
    findRoleById ([] : List Role) "r1" = none
    ∧ (roleUpdate ⟨[], []⟩ "r1" ⟨"GoodName", []⟩).2 = Except.ok none
    ∧ (roleUpdate ⟨[], []⟩ "r1" ⟨"GoodName", []⟩).2 ≠
        Except.error ApiError.NotFound
    ∧ (roleDelete ⟨[], []⟩ "r1").2 = Except.ok "Success"
    ∧ (roleDelete ⟨[], []⟩ "r1").2 ≠ Except.error ApiError.NotFound := by
  refine ⟨rfl, rfl, ?_, rfl, ?_⟩ <;> intro h <;> cases h

/-- C9 amended: a role update whose role identifier does not resolve
still answers success when reference validation passes — 200 with a
null document and an unchanged store (and a 400 validation error, not
NotFound, when reference validation fails); a role delete whose
identifier does not resolve answers success 201 unconditionally with an
unchanged store.  NotFound is never produced by these two handlers. -/
theorem C9_amended_update_delete_no_notFound (st : Store) (roleId : String)
    (dto : RoleDto) (h : findRoleById st.roles roleId = none) :
    (validateServiceOps st.services dto.serviceOpIds = true →
      roleUpdate st roleId dto = (st, Except.ok none))
    ∧ (validateServiceOps st.services dto.serviceOpIds = false →
      roleUpdate st roleId dto = (st, Except.error ApiError.ValidationError))
    ∧ roleDelete st roleId = (st, Except.ok "Success") := by
  refine ⟨?_, ?_, ?_⟩
  · intro hv
    simp [roleUpdate, hv, findOneAndUpdateRole_miss roleId dto st.roles h]
  · intro hv
    simp [roleUpdate, hv]
  · simp [roleDelete, deleteOneRole_miss roleId st.roles h]

/-- C9 amended witness: with one unrelated role stored, updating and
deleting the absent id "r1" both answer success and leave the store as
it was. -/
theorem C9_amended_update_delete_no_notFound_witness :
    roleUpdate ⟨[], [⟨"A", "Admins", []⟩]⟩ "r1" ⟨"GoodName", []⟩ =
      (⟨[], [⟨"A", "Admins", []⟩]⟩, Except.ok none)
    ∧ roleDelete ⟨[], [⟨"A", "Admins", []⟩]⟩ "r1" =
      (⟨[], [⟨"A", "Admins", []⟩]⟩, Except.ok "Success") := by
  have h := C9_amended_update_delete_no_notFound
    ⟨[], [⟨"A", "Admins", []⟩]⟩ "r1" ⟨"GoodName", []⟩ (by decide)
  exact ⟨h.1 (by decide), h.2.2⟩

/-- C10: a role update over an existing role with validating references
always succeeds and stores the requested name — nothing constrains the
name's length, so this covers names outside the creation-time [4,40]
bounds as well. -/
theorem C10_roleUpdate_skips_name_validation (st : Store) (roleId : String)
    (dto : RoleDto) (r : Role)
    (hfind : findRoleById st.roles roleId = some r)
    (hrefs : validateServiceOps st.services dto.serviceOpIds = true) :
    ∃ r', (roleUpdate st roleId dto).2 = Except.ok (some r')
      ∧ r'.name = dto.name
      ∧ r'.serviceOpIds = dto.serviceOpIds
      ∧ r' ∈ (roleUpdate st roleId dto).1.roles := by
  have h := findOneAndUpdateRole_hit roleId dto st.roles r hfind
  refine ⟨{ r with name := dto.name, serviceOpIds := dto.serviceOpIds },
    ?_, rfl, rfl, ?_⟩
  · simp [roleUpdate, hrefs, h.1]
  · simp [roleUpdate, hrefs, h.2]

/-- C10 witness: updating the stored role "E" to the two-character name
"ab" (outside the creation bounds) succeeds and stores "ab". -/
theorem C10_roleUpdate_skips_name_validation_witness :
    ("ab".length < 4 ∨ 40 < "ab".length)
    ∧ ∃ r', (roleUpdate
          ⟨[⟨"A", "SvcA", [⟨"X", "op1"⟩]⟩], [⟨"E", "Editors", ["X"]⟩]⟩
          "E" ⟨"ab", ["X"]⟩).2 = Except.ok (some r')
        ∧ r'.name = "ab"
        ∧ r'.serviceOpIds = ["X"]
        ∧ r' ∈ (roleUpdate
            ⟨[⟨"A", "SvcA", [⟨"X", "op1"⟩]⟩], [⟨"E", "Editors", ["X"]⟩]⟩
            "E" ⟨"ab", ["X"]⟩).1.roles :=
  ⟨by decide,
   C10_roleUpdate_skips_name_validation
     ⟨[⟨"A", "SvcA", [⟨"X", "op1"⟩]⟩], [⟨"E", "Editors", ["X"]⟩]⟩
     "E" ⟨"ab", ["X"]⟩ ⟨"E", "Editors", ["X"]⟩ (by decide) (by decide)⟩

end Rbac
